import Mathlib

/-!
Formal model of the Veil attestation contract
(`src/packages/casper/src/veil_attestation.rs`, types in `types.rs`).

Bytes are modelled as `List Nat` (each element a byte value), machine
integers as `Nat` (`u64` / `U512` values; overflow is unreachable for the
quantities involved: nonces increment once per call, timestamps are
milliseconds since epoch, stakes fit in 512 bits by the `U512` type
invariant).  External collaborators (the keccak-256 digest from the `sha3`
crate, the secp256k1 signer from `k256`, and the host's `Address`
rendering) are parameters collected in an `Env` structure: the contract
code treats them as black boxes, and so do we.
-/

namespace Veil

abbrev Bytes := List Nat

abbrev Address := Nat

/-- `pad_left_32`: left-pad a byte slice to 32 bytes with zeros
(source copies `data` into the tail of a zeroed 32-byte buffer). -/
def pad_left_32 (data : Bytes) : Bytes :=
  List.replicate (32 - data.length) 0 ++ data

/-- Big-endian byte rendering of `n` on exactly `k` bytes (the value is
taken modulo `2 ^ (8 * k)`, as Rust's fixed-width `to_be_bytes` does). -/
def toBeBytes : Nat → Nat → Bytes
  | 0, _ => []
  | k + 1, n => toBeBytes k (n / 256) ++ [n % 256]

/-- `u512_to_bytes32`: the source writes the 64-byte big-endian form of the
`U512` and keeps bytes 32..64, i.e. the low-order 32 bytes. -/
def u512_to_bytes32 (value : Nat) : Bytes :=
  (toBeBytes 64 value).drop 32

/-- Tiers, with the numeric tags of the Rust enum. -/
inductive Tier where
  | None
  | Bronze
  | Silver
  | Gold
  | Platinum
  | Validator
  deriving DecidableEq, Repr

/-- The `tier as u8` cast (Rust assigns the listed discriminants 0..5). -/
def tierToU8 : Tier → Nat
  | .None => 0
  | .Bronze => 1
  | .Silver => 2
  | .Gold => 3
  | .Platinum => 4
  | .Validator => 5

/-- `calculate_tier`: divide motes by 10^9 and apply the breakpoints,
highest first (`U512` division on values below `2 ^ 512` agrees with `Nat`
division). -/
def calculate_tier (stake_motes : Nat) : Tier :=
  let stake_cspr := stake_motes / 1000000000
  if 100000 ≤ stake_cspr then Tier.Platinum
  else if 10000 ≤ stake_cspr then Tier.Gold
  else if 1000 ≤ stake_cspr then Tier.Silver
  else if 100 ≤ stake_cspr then Tier.Bronze
  else Tier.None

/-- `query_user_stake`: the stake collaborator stub, which returns
`U512::zero()` for every user. -/
def query_user_stake (_user : Address) : Nat := 0

/-- `AttestationPayload` from `types.rs` (strings as their UTF-8 bytes). -/
structure AttestationPayload where
  casper_address_hash : Bytes
  target_chain : Bytes
  target_address : Bytes
  stake_amount : Nat
  tier : Nat
  account_age_days : Nat
  created_at : Nat
  expires_at : Nat
  nonce : Nat
  deriving DecidableEq, Repr

/-- `Attestation` from `types.rs`. -/
structure Attestation where
  id : Bytes
  casper_address : Address
  target_chain : Bytes
  target_address : Bytes
  stake_amount : Nat
  tier : Tier
  account_age_days : Nat
  created_at : Nat
  expires_at : Nat
  nonce : Nat
  revoked : Bool
  deriving DecidableEq, Repr

/-- `abi_encode_payload`, transcribed statement by statement from the
source (each `extend_from_slice` is one `++` block; `usize` offsets are
rendered with `to_be_bytes` and then left-padded to 32 bytes, so the
rendered width is immaterial below `2 ^ 64`). -/
def abi_encode_payload (p : AttestationPayload) : Bytes :=
  let head_size := 9 * 32
  let chain_offset := head_size
  let chain_len := p.target_chain.length
  let chain_padded := ((chain_len + 31) / 32) * 32
  let address_offset := chain_offset + 32 + chain_padded
  let addr_len := p.target_address.length
  let addr_padded := ((addr_len + 31) / 32) * 32
  p.casper_address_hash
    ++ pad_left_32 (toBeBytes 8 chain_offset)
    ++ pad_left_32 (toBeBytes 8 address_offset)
    ++ u512_to_bytes32 p.stake_amount
    ++ pad_left_32 [p.tier]
    ++ pad_left_32 (toBeBytes 8 p.account_age_days)
    ++ pad_left_32 (toBeBytes 8 p.created_at)
    ++ pad_left_32 (toBeBytes 8 p.expires_at)
    ++ pad_left_32 (toBeBytes 8 p.nonce)
    ++ pad_left_32 (toBeBytes 8 chain_len)
    ++ p.target_chain
    ++ List.replicate (chain_padded - chain_len) 0
    ++ pad_left_32 (toBeBytes 8 addr_len)
    ++ p.target_address
    ++ List.replicate (addr_padded - addr_len) 0

/-! ### Spec-side formulation of the encoding layout (for claim C1) -/

/-- A 32-byte ABI word: the big-endian value left-zero-padded to 32 bytes
(the spec's description of every numeric head slot). -/
def abiWord (n : Nat) : Bytes := toBeBytes 32 n

/-- Round a byte count up to the next multiple of 32. -/
def ceil32 (n : Nat) : Nat := ((n + 31) / 32) * 32

/-- The head of the encoding as the spec describes it: nine 32-byte words. -/
def specHead (p : AttestationPayload) : Bytes :=
  p.casper_address_hash
    ++ abiWord 288
    ++ abiWord (288 + 32 + ceil32 p.target_chain.length)
    ++ abiWord p.stake_amount
    ++ abiWord p.tier
    ++ abiWord p.account_age_days
    ++ abiWord p.created_at
    ++ abiWord p.expires_at
    ++ abiWord p.nonce

/-- One dynamic block of the tail: 32-byte length word, raw bytes, zero
padding to the next multiple of 32. -/
def specDyn (s : Bytes) : Bytes :=
  abiWord s.length ++ s ++ List.replicate (ceil32 s.length - s.length) 0

/-- The tail as the spec describes it: chain block then address block. -/
def specTail (p : AttestationPayload) : Bytes :=
  specDyn p.target_chain ++ specDyn p.target_address

/-! ### Byte-rendering lemmas -/

theorem toBeBytes_length (k n : Nat) : (toBeBytes k n).length = k := by
  induction k generalizing n with
  | zero => rfl
  | succ k ih => simp [toBeBytes, ih]

theorem toBeBytes_zero (k : Nat) : toBeBytes k 0 = List.replicate k 0 := by
  induction k with
  | zero => rfl
  | succ k ih =>
      simp [toBeBytes, ih, List.replicate_succ']

/-- Splitting a big-endian rendering: the first `a` bytes render the high
part, the last `b` bytes render the low part. -/
theorem toBeBytes_add (a b n : Nat) :
    toBeBytes (a + b) n = toBeBytes a (n / 256 ^ b) ++ toBeBytes b n := by
  induction b generalizing n with
  | zero => simp [toBeBytes]
  | succ b ih =>
      have h1 : a + (b + 1) = (a + b) + 1 := by omega
      rw [h1]
      show toBeBytes (a + b) (n / 256) ++ [n % 256] = _
      rw [ih (n / 256)]
      have h2 : n / 256 / 256 ^ b = n / 256 ^ (b + 1) := by
        rw [Nat.div_div_eq_div_mul, pow_succ, mul_comm]
      rw [h2]
      simp [toBeBytes]

/-- Rendering a value that fits in the low `b` bytes on `a + b` bytes just
prepends `a` zero bytes. -/
theorem toBeBytes_small (a b n : Nat) (h : n < 256 ^ b) :
    toBeBytes (a + b) n = List.replicate a 0 ++ toBeBytes b n := by
  rw [toBeBytes_add, Nat.div_eq_of_lt h, toBeBytes_zero]

/-- Left-padding the `k`-byte rendering of a small value to 32 bytes gives
the 32-byte rendering. -/
theorem pad_toBeBytes (k n : Nat) (hk : k ≤ 32) (h : n < 256 ^ k) :
    pad_left_32 (toBeBytes k n) = toBeBytes 32 n := by
  have h32 : 32 = (32 - k) + k := by omega
  rw [pad_left_32, toBeBytes_length]
  rw [h32, toBeBytes_small (32 - k) k n h]
  have h3 : 32 - k + k - k = 32 - k := by omega
  rw [h3]

/-- A single byte rendered then padded is the 32-byte word of its value. -/
theorem pad_single_byte (t : Nat) (h : t < 256) :
    pad_left_32 [t] = toBeBytes 32 t := by
  have h1 : [t] = toBeBytes 1 t := by
    simp [toBeBytes, Nat.mod_eq_of_lt h, Nat.div_eq_of_lt h]
  rw [h1, pad_toBeBytes 1 t (by omega) (by simpa using h)]

/-- The low half of the 64-byte rendering is the 32-byte rendering: the
source's `u512_to_bytes32` keeps exactly the low-order 32 bytes. -/
theorem u512_to_bytes32_eq (value : Nat) :
    u512_to_bytes32 value = toBeBytes 32 value := by
  rw [u512_to_bytes32]
  have h : (64 : Nat) = 32 + 32 := by omega
  rw [h, toBeBytes_add 32 32 value]
  rw [List.drop_append_of_le_length (by simp [toBeBytes_length])]
  simp [toBeBytes_length]

theorem pad_left_32_length (d : Bytes) (h : d.length ≤ 32) :
    (pad_left_32 d).length = 32 := by
  simp [pad_left_32]
  omega

/-- The code's encoding agrees with the spec's word-by-word layout, under
the bounds guaranteed by the Rust types (`tier : u8`, the four counters
`u64`, string lengths bounded by the 32-bit address space). -/
theorem abi_encode_eq_spec (p : AttestationPayload)
    (htier : p.tier < 256)
    (hage : p.account_age_days < 18446744073709551616)
    (hcr : p.created_at < 18446744073709551616)
    (hexp : p.expires_at < 18446744073709551616)
    (hnon : p.nonce < 18446744073709551616)
    (hclen : p.target_chain.length < 4294967296)
    (halen : p.target_address.length < 4294967296) :
    abi_encode_payload p = specHead p ++ specTail p := by
  have h64 : (256 : Nat) ^ 8 = 18446744073709551616 := by norm_num
  have e1 : pad_left_32 (toBeBytes 8 288) = abiWord 288 :=
    pad_toBeBytes 8 288 (by omega) (by rw [h64]; omega)
  have e2 : pad_left_32 (toBeBytes 8 (320 + (p.target_chain.length + 31) / 32 * 32)) =
      abiWord (320 + (p.target_chain.length + 31) / 32 * 32) := by
    refine pad_toBeBytes 8 _ (by omega) ?_
    rw [h64]
    omega
  have e3 : pad_left_32 [p.tier] = abiWord p.tier := pad_single_byte p.tier htier
  have e4 : pad_left_32 (toBeBytes 8 p.account_age_days) = abiWord p.account_age_days :=
    pad_toBeBytes 8 _ (by omega) (by omega)
  have e5 : pad_left_32 (toBeBytes 8 p.created_at) = abiWord p.created_at :=
    pad_toBeBytes 8 _ (by omega) (by omega)
  have e6 : pad_left_32 (toBeBytes 8 p.expires_at) = abiWord p.expires_at :=
    pad_toBeBytes 8 _ (by omega) (by omega)
  have e7 : pad_left_32 (toBeBytes 8 p.nonce) = abiWord p.nonce :=
    pad_toBeBytes 8 _ (by omega) (by omega)
  have e8 : pad_left_32 (toBeBytes 8 p.target_chain.length) = abiWord p.target_chain.length :=
    pad_toBeBytes 8 _ (by omega) (by omega)
  have e9 : pad_left_32 (toBeBytes 8 p.target_address.length) = abiWord p.target_address.length :=
    pad_toBeBytes 8 _ (by omega) (by omega)
  have est : u512_to_bytes32 p.stake_amount = abiWord p.stake_amount :=
    u512_to_bytes32_eq p.stake_amount
  simp [abi_encode_payload, specHead, specTail, specDyn, ceil32,
    e1, e2, e3, e4, e5, e6, e7, e8, e9, est, List.append_assoc]

theorem specHead_length (p : AttestationPayload)
    (hhash : p.casper_address_hash.length = 32) : (specHead p).length = 288 := by
  simp [specHead, abiWord, toBeBytes_length, hhash]

/-- C1: `abi_encode_payload` produces exactly a 288-byte head of nine
32-byte words — identity hash raw, chain offset 288, address offset
288 + 32 + ceil32(chain length), stake as the low-order 32 bytes of the
U512 big-endian, tier byte left-padded, then the four u64 counters each
big-endian left-zero-padded to 32 bytes — followed by a tail at byte 288
holding, for chain then address, a 32-byte length word, the raw bytes and
zero padding to the next multiple of 32.  Hypotheses are the bounds the
Rust types guarantee (keccak output 32 bytes, `u8`, `u64`, 32-bit string
lengths). -/
theorem c1_abi_encode_layout (p : AttestationPayload)
    (hhash : p.casper_address_hash.length = 32)
    (htier : p.tier < 256)
    (hage : p.account_age_days < 18446744073709551616)
    (hcr : p.created_at < 18446744073709551616)
    (hexp : p.expires_at < 18446744073709551616)
    (hnon : p.nonce < 18446744073709551616)
    (hclen : p.target_chain.length < 4294967296)
    (halen : p.target_address.length < 4294967296) :
    abi_encode_payload p = specHead p ++ specTail p
    ∧ (specHead p).length = 288
    ∧ (abi_encode_payload p).take 288 = specHead p
    ∧ (abi_encode_payload p).drop 288 = specTail p
    ∧ abiWord p.stake_amount = (toBeBytes 64 p.stake_amount).drop 32 := by
  have hmain := abi_encode_eq_spec p htier hage hcr hexp hnon hclen halen
  have hlen := specHead_length p hhash
  refine ⟨hmain, hlen, ?_, ?_, (u512_to_bytes32_eq p.stake_amount).symm⟩
  · rw [hmain, ← hlen, List.take_left]
  · rw [hmain, ← hlen, List.drop_left]

/-- Witness for C1 at a concrete payload. -/
theorem c1_abi_encode_layout_witness :
    abi_encode_payload
        { casper_address_hash := List.replicate 32 7
          target_chain := [101, 116, 104]
          target_address := [48, 120] ++ List.replicate 40 97
          stake_amount := 123456789
          tier := 2
          account_age_days := 5
          created_at := 1000
          expires_at := 604801000
          nonce := 3 } =
      specHead
        { casper_address_hash := List.replicate 32 7
          target_chain := [101, 116, 104]
          target_address := [48, 120] ++ List.replicate 40 97
          stake_amount := 123456789
          tier := 2
          account_age_days := 5
          created_at := 1000
          expires_at := 604801000
          nonce := 3 } ++
      specTail
        { casper_address_hash := List.replicate 32 7
          target_chain := [101, 116, 104]
          target_address := [48, 120] ++ List.replicate 40 97
          stake_amount := 123456789
          tier := 2
          account_age_days := 5
          created_at := 1000
          expires_at := 604801000
          nonce := 3 } :=
  (c1_abi_encode_layout _ (by decide) (by norm_num) (by norm_num) (by norm_num)
    (by norm_num) (by norm_num) (by decide) (by decide)).1

/-- C3: tier classification is a pure function of the stake; thresholds in
base units (motes), obtained by multiplying out the truncating division by
10^9, plus the five boundary values named by the spec. -/
theorem c3_calculate_tier_thresholds :
    (∀ stake : Nat, calculate_tier stake = Tier.Platinum ↔ 100000000000000 ≤ stake)
    ∧ (∀ stake : Nat, calculate_tier stake = Tier.Gold ↔
        10000000000000 ≤ stake ∧ stake < 100000000000000)
    ∧ (∀ stake : Nat, calculate_tier stake = Tier.Silver ↔
        1000000000000 ≤ stake ∧ stake < 10000000000000)
    ∧ (∀ stake : Nat, calculate_tier stake = Tier.Bronze ↔
        100000000000 ≤ stake ∧ stake < 1000000000000)
    ∧ (∀ stake : Nat, calculate_tier stake = Tier.None ↔ stake < 100000000000)
    ∧ calculate_tier (99999 * 1000000000) = Tier.Gold
    ∧ calculate_tier (100000 * 1000000000) = Tier.Platinum
    ∧ calculate_tier (999 * 1000000000) = Tier.Bronze
    ∧ calculate_tier (1000 * 1000000000) = Tier.Silver
    ∧ calculate_tier 0 = Tier.None := by
  refine ⟨?_, ?_, ?_, ?_, ?_, by decide, by decide, by decide, by decide, by decide⟩
  all_goals
    intro stake
    simp only [calculate_tier]
    split_ifs <;> simp_all <;> omega

/-! ### The registry state machine

External collaborators, all black boxes to the contract code, are gathered
in `Env`: the keccak-256 digest (`sha3` crate), the host's textual address
rendering (`Address::to_string`), the recoverable secp256k1 signer
(`k256::SigningKey::sign_prehash_recoverable`, returning the 64 bytes of
`Signature::to_bytes` plus the recovery-id byte) and public-key derivation.
A panicking assertion aborts the whole entry point with every state write
rolled back (Casper host semantics), so each operation is modelled as an
`Option`-returning function: `none` means abort with the state unchanged. -/

structure Env where
  keccak : Bytes → Bytes
  addrStr : Address → Bytes
  ecdsaSign : Bytes → Bytes → Bytes × Nat
  derivePub : Bytes → Bytes

/-- `hash_address`: keccak-256 of the address's string rendering. -/
def hash_address (E : Env) (address : Address) : Bytes :=
  E.keccak (E.addrStr address)

/-- The fixed ASCII frame `b"\x19Ethereum Signed Message:\n32"`. -/
def ethSignedMessageFrame : Bytes :=
  [25, 69, 116, 104, 101, 114, 101, 117, 109, 32, 83, 105, 103, 110, 101,
   100, 32, 77, 101, 115, 115, 97, 103, 101, 58, 10, 51, 50]

/-- `sign_message`: keccak the personal-message frame plus the digest, sign
the prehash recoverably, return r ‖ s ‖ (recovery-id + 27). -/
def sign_message (E : Env) (private_key : Bytes) (message_hash : Bytes) : Bytes :=
  let eth_hash := E.keccak (ethSignedMessageFrame ++ message_hash)
  let sr := E.ecdsaSign private_key eth_hash
  sr.1 ++ [sr.2 + 27]

/-- Contract storage: the three mappings and the `Var`s of the module
(mappings read as `Option`, `None` for an absent key). -/
structure State where
  attestations : Bytes → Option Attestation
  user_attestations : Address → Option (List Bytes)
  user_nonces : Address → Option Nat
  signer_private_key : Option Bytes
  signer_public_key : Option Bytes
  admin : Option Address
  attestation_validity_secs : Option Nat

/-- `init`: store admin and the key pair, set the 7-day validity. -/
def initState (E : Env) (admin : Address) (signer_private_key : Bytes) : State :=
  { attestations := fun _ => none
    user_attestations := fun _ => none
    user_nonces := fun _ => none
    signer_private_key := some signer_private_key
    signer_public_key := some (E.derivePub signer_private_key)
    admin := some admin
    attestation_validity_secs := some (7 * 24 * 60 * 60) }

/-- The `assert!` guard of `create_attestation`:
`target_address.starts_with("0x") && target_address.len() == 42`
(on the UTF-8 bytes; 48 and 120 are the codes of `'0'` and `'x'`). -/
def valid_target_address (target_address : Bytes) : Bool :=
  decide (target_address.take 2 = [48, 120]) && target_address.length == 42

/-- The payload `create_attestation` builds (its `let payload = ...`). -/
def creationPayload (E : Env) (caller : Address) (now : Nat) (validity : Nat)
    (target_chain target_address : Bytes) (nonce : Nat) : AttestationPayload :=
  { casper_address_hash := hash_address E caller
    target_chain := target_chain
    target_address := target_address
    stake_amount := query_user_stake caller
    tier := tierToU8 (calculate_tier (query_user_stake caller))
    account_age_days := 0
    created_at := now
    expires_at := now + validity * 1000
    nonce := nonce }

/-- The `Attestation` record a successful creation stores (the source's
`let attestation = Attestation { .. }`). -/
def createdAttestation (E : Env) (caller : Address) (now validity : Nat)
    (target_chain target_address : Bytes) (nonce : Nat) : Attestation :=
  { id := E.keccak (abi_encode_payload
      (creationPayload E caller now validity target_chain target_address nonce))
    casper_address := caller
    target_chain := target_chain
    target_address := target_address
    stake_amount := query_user_stake caller
    tier := calculate_tier (query_user_stake caller)
    account_age_days := 0
    created_at := now
    expires_at := now + validity * 1000
    nonce := nonce
    revoked := false }

/-- The body of a successful `create_attestation`: read stake and tier,
take the pre-increment nonce, build and encode the payload, hash it into
the id, sign, store the record, append the id to the caller's list, bump
the nonce. -/
def createResult (E : Env) (caller : Address) (now : Nat) (private_key : Bytes)
    (target_chain target_address : Bytes) (s : State) : State × Bytes × Bytes :=
  let nonce := (s.user_nonces caller).getD 0
  let validity := s.attestation_validity_secs.getD 604800
  let payload := creationPayload E caller now validity target_chain target_address nonce
  let encoded := abi_encode_payload payload
  let attestation_id := E.keccak encoded
  let signature := sign_message E private_key attestation_id
  let attestation : Attestation :=
    createdAttestation E caller now validity target_chain target_address nonce
  let s' : State :=
    { s with
      user_nonces := fun a => if a = caller then some (nonce + 1) else s.user_nonces a
      attestations := fun i =>
        if i = attestation_id then some attestation else s.attestations i
      user_attestations := fun a =>
        if a = caller then
          some ((s.user_attestations caller).getD [] ++ [attestation_id])
        else s.user_attestations a }
  (s', attestation_id, signature)

/-- `create_attestation`: validate, then run the body.  Returns `none`
(abort, no state change) when validation fails, or when the signer key is
unset (the source would panic in `sign_message`, rolling back every
write). -/
def create_attestation (E : Env) (caller : Address) (now : Nat)
    (target_chain target_address : Bytes) (s : State) :
    Option (State × Bytes × Bytes) :=
  if valid_target_address target_address then
    match s.signer_private_key with
    | none => none
    | some private_key =>
      some (createResult E caller now private_key target_chain target_address s)
  else none

/-- `revoke_attestation`: not-found, authorization and already-revoked
checks in source order; on success flip `revoked` and store back. -/
def revoke_attestation (caller : Address) (attestation_id : Bytes) (s : State) :
    Option State :=
  match s.attestations attestation_id with
  | none => none
  | some attestation =>
    if attestation.casper_address = caller then
      if attestation.revoked then none
      else
        some { s with
          attestations := fun i =>
            if i = attestation_id then some { attestation with revoked := true }
            else s.attestations i }
    else none

/-- `get_attestation`. -/
def get_attestation (s : State) (id : Bytes) : Option Attestation :=
  s.attestations id

/-- `get_user_attestations`: ids in creation order, missing ids skipped. -/
def get_user_attestations (s : State) (user : Address) : List Attestation :=
  ((s.user_attestations user).getD []).filterMap fun id => s.attestations id

/-- `get_user_tier`: re-query stake and reclassify. -/
def get_user_tier (_s : State) (user : Address) : Tier :=
  calculate_tier (query_user_stake user)

/-- The payload `get_attestation_for_evm` reconstructs from a stored
record (its `let payload = ...`). -/
def payloadOfRecord (E : Env) (a : Attestation) : AttestationPayload :=
  { casper_address_hash := hash_address E a.casper_address
    target_chain := a.target_chain
    target_address := a.target_address
    stake_amount := a.stake_amount
    tier := tierToU8 a.tier
    account_age_days := a.account_age_days
    created_at := a.created_at
    expires_at := a.expires_at
    nonce := a.nonce }

/-- `get_attestation_for_evm`: rebuild the payload from the stored fields,
re-encode, re-hash, re-sign. -/
def get_attestation_for_evm (E : Env) (s : State) (id : Bytes) :
    Option (Bytes × Bytes) :=
  match s.attestations id, s.signer_private_key with
  | some attestation, some private_key =>
    let encoded := abi_encode_payload (payloadOfRecord E attestation)
    let attestation_id := E.keccak encoded
    some (encoded, sign_message E private_key attestation_id)
  | _, _ => none

/-- The two mutating entry points, with their call context (caller and
block time are supplied by the host on each call). -/
inductive Op where
  | create (caller : Address) (now : Nat) (target_chain target_address : Bytes)
  | revoke (caller : Address) (attestation_id : Bytes)

/-- Execute one entry point; a failed call leaves the state unchanged
(host rollback on panic). -/
def execOp (E : Env) (s : State) : Op → State
  | .create c now tc ta =>
    match create_attestation E c now tc ta s with
    | some (s', _, _) => s'
    | none => s
  | .revoke c i => (revoke_attestation c i s).getD s

/-- Run a sequence of entry-point calls. -/
def run (E : Env) (s : State) : List Op → State
  | [] => s
  | op :: rest => run E (execOp E s op) rest

/-- A state is reachable when it arises from `init` by some call sequence. -/
def Reachable (E : Env) (s : State) : Prop :=
  ∃ admin key ops, s = run E (initState E admin key) ops

/-- The nonces recorded by the successful creations of owner `o` along a
call sequence, in call order (each one read pre-increment, as the code
does). -/
def noncesUsed (E : Env) (o : Address) (s : State) : List Op → List Nat
  | [] => []
  | .create c now tc ta :: rest =>
    match create_attestation E c now tc ta s with
    | some (s', _, _) =>
      (if c = o then [(s.user_nonces c).getD 0] else []) ++ noncesUsed E o s' rest
    | none => noncesUsed E o s rest
  | .revoke c i :: rest => noncesUsed E o (execOp E s (.revoke c i)) rest

/-! ### Structural lemmas about the operations -/

theorem create_attestation_some {E : Env} {c : Address} {now : Nat} {tc ta : Bytes}
    {s : State} {r : State × Bytes × Bytes}
    (h : create_attestation E c now tc ta s = some r) :
    valid_target_address ta = true ∧
    ∃ key, s.signer_private_key = some key ∧ r = createResult E c now key tc ta s := by
  unfold create_attestation at h
  split at h
  case isTrue hv =>
    refine ⟨hv, ?_⟩
    cases hk : s.signer_private_key with
    | none => rw [hk] at h; cases h
    | some key =>
        rw [hk] at h
        exact ⟨key, rfl, (Option.some_injective _ h).symm⟩
  case isFalse hv => cases h

theorem create_attestation_none {E : Env} {c : Address} {now : Nat} {tc ta : Bytes}
    {s : State} (h : valid_target_address ta = false) :
    create_attestation E c now tc ta s = none := by
  unfold create_attestation
  simp [h]

theorem createResult_id (E : Env) (c : Address) (now : Nat) (key tc ta : Bytes)
    (s : State) :
    (createResult E c now key tc ta s).2.1 =
      E.keccak (abi_encode_payload (creationPayload E c now
        (s.attestation_validity_secs.getD 604800) tc ta
        ((s.user_nonces c).getD 0))) := rfl

theorem createResult_attestations (E : Env) (c : Address) (now : Nat)
    (key tc ta : Bytes) (s : State) :
    (createResult E c now key tc ta s).1.attestations = fun i =>
      if i = (createResult E c now key tc ta s).2.1 then
        some (createdAttestation E c now (s.attestation_validity_secs.getD 604800)
          tc ta ((s.user_nonces c).getD 0))
      else s.attestations i := rfl

theorem createResult_nonces (E : Env) (c : Address) (now : Nat)
    (key tc ta : Bytes) (s : State) :
    (createResult E c now key tc ta s).1.user_nonces = fun a =>
      if a = c then some ((s.user_nonces c).getD 0 + 1) else s.user_nonces a := rfl

theorem createResult_frame (E : Env) (c : Address) (now : Nat)
    (key tc ta : Bytes) (s : State) :
    (createResult E c now key tc ta s).1.signer_private_key = s.signer_private_key
    ∧ (createResult E c now key tc ta s).1.signer_public_key = s.signer_public_key
    ∧ (createResult E c now key tc ta s).1.admin = s.admin
    ∧ (createResult E c now key tc ta s).1.attestation_validity_secs =
        s.attestation_validity_secs := ⟨rfl, rfl, rfl, rfl⟩

/-- Re-deriving the payload from the freshly stored record gives back the
creation payload, field for field. -/
theorem payloadOfRecord_created (E : Env) (c : Address) (now validity : Nat)
    (tc ta : Bytes) (nonce : Nat) :
    payloadOfRecord E (createdAttestation E c now validity tc ta nonce) =
      creationPayload E c now validity tc ta nonce := rfl

theorem revoke_attestation_some {c : Address} {id : Bytes} {s s' : State}
    (h : revoke_attestation c id s = some s') :
    ∃ att, s.attestations id = some att ∧ att.casper_address = c ∧
      att.revoked = false ∧
      s' = { s with attestations := fun i =>
        if i = id then some { att with revoked := true } else s.attestations i } := by
  cases hA : s.attestations id with
  | none =>
    simp only [revoke_attestation, hA] at h
    cases h
  | some att =>
    simp only [revoke_attestation, hA] at h
    split at h
    case isTrue hc =>
      split at h
      case isTrue hr => cases h
      case isFalse hr =>
        exact ⟨att, rfl, hc, by simpa using hr, (Option.some_injective _ h).symm⟩
    case isFalse hc => cases h

theorem revoke_attestation_isSome (c : Address) (id : Bytes) (s : State) :
    (revoke_attestation c id s).isSome = true ↔
      ∃ att, s.attestations id = some att ∧ att.casper_address = c ∧
        att.revoked = false := by
  cases hA : s.attestations id with
  | none => simp [revoke_attestation, hA]
  | some att =>
    simp only [revoke_attestation, hA]
    split_ifs with hc hr
    · simp [hc, hr]
    · simp only [Bool.not_eq_true] at hr
      simp [hc, hr]
    · simp [hc]

theorem execOp_revoke_nonces (E : Env) (c : Address) (i : Bytes) (s : State) :
    (execOp E s (.revoke c i)).user_nonces = s.user_nonces := by
  cases h : revoke_attestation c i s with
  | none => simp [execOp, h]
  | some s' =>
    obtain ⟨att, _, _, _, hs⟩ := revoke_attestation_some h
    simp [execOp, h, hs]

/-- Along any call sequence, the nonces recorded for owner `o` are the
consecutive integers starting at the current counter value, and the final
counter value is the starting one plus the number of successful
creations. -/
theorem noncesUsed_spec (E : Env) (o : Address) :
    ∀ (ops : List Op) (s : State),
      noncesUsed E o s ops =
        List.range' ((s.user_nonces o).getD 0) (noncesUsed E o s ops).length
      ∧ ((run E s ops).user_nonces o).getD 0 =
          (s.user_nonces o).getD 0 + (noncesUsed E o s ops).length := by
  intro ops
  induction ops with
  | nil => intro s; simp [noncesUsed, run]
  | cons op rest ih =>
    intro s
    cases op with
    | create c now tc ta =>
      cases h : create_attestation E c now tc ta s with
      | none =>
        simp only [noncesUsed, run, execOp, h]
        exact ih s
      | some r =>
        obtain ⟨s', id, sig⟩ := r
        obtain ⟨-, key, hk, hr⟩ := create_attestation_some h
        have hs' : s' = (createResult E c now key tc ta s).1 := by rw [← hr]
        by_cases hco : c = o
        · subst hco
          have hn : (s'.user_nonces c).getD 0 = (s.user_nonces c).getD 0 + 1 := by
            rw [hs', createResult_nonces]
            simp
          obtain ⟨ih1, ih2⟩ := ih s'
          rw [hn] at ih1 ih2
          constructor
          · simp only [noncesUsed, h]
            rw [if_pos trivial]
            simp only [List.singleton_append, List.length_cons]
            rw [List.range'_succ]
            congr 1
          · simp only [noncesUsed, run, execOp, h]
            rw [if_pos trivial]
            simp only [List.singleton_append, List.length_cons]
            rw [ih2]
            omega
        · have hn : s'.user_nonces o = s.user_nonces o := by
            rw [hs', createResult_nonces]
            simp only []
            exact if_neg fun hoc => hco hoc.symm
          obtain ⟨ih1, ih2⟩ := ih s'
          rw [hn] at ih1 ih2
          constructor
          · simp only [noncesUsed, h]
            rw [if_neg hco]
            simpa using ih1
          · simp only [noncesUsed, run, execOp, h]
            rw [if_neg hco]
            simpa using ih2
    | revoke c i =>
      have hn := execOp_revoke_nonces E c i s
      obtain ⟨ih1, ih2⟩ := ih (execOp E s (.revoke c i))
      rw [hn] at ih1 ih2
      constructor
      · simp only [noncesUsed]
        exact ih1
      · simp only [noncesUsed, run]
        exact ih2

/-- C4: the nonce counter starts absent (read as 0); the successful
creations by an owner record exactly the consecutive nonces 0, 1, 2, …
(so the nth successful creation, counting from 1, carries nonce n − 1);
after each success the counter is the recorded value plus one; the counter
never decreases along any call sequence; and the recorded nonces are
pairwise distinct (never reused, revocations included, since `noncesUsed`
counts revoke calls as well). -/
theorem c4_nonce_counter (E : Env) (admin : Address) (key : Bytes) (o : Address)
    (ops : List Op) :
    (initState E admin key).user_nonces o = none
    ∧ noncesUsed E o (initState E admin key) ops
        = List.range (noncesUsed E o (initState E admin key) ops).length
    ∧ ((run E (initState E admin key) ops).user_nonces o).getD 0
        = (noncesUsed E o (initState E admin key) ops).length
    ∧ (noncesUsed E o (initState E admin key) ops).Nodup
    ∧ (∀ s more, (s.user_nonces o).getD 0 ≤ ((run E s more).user_nonces o).getD 0)
    ∧ (∀ c now tc ta s s' id sig,
        create_attestation E c now tc ta s = some (s', id, sig) →
        s'.attestations id = some (createdAttestation E c now
            (s.attestation_validity_secs.getD 604800) tc ta
            ((s.user_nonces c).getD 0))
        ∧ (createdAttestation E c now (s.attestation_validity_secs.getD 604800)
            tc ta ((s.user_nonces c).getD 0)).nonce = (s.user_nonces c).getD 0
        ∧ s'.user_nonces c = some ((s.user_nonces c).getD 0 + 1)) := by
  have hinit : ((initState E admin key).user_nonces o).getD 0 = 0 := rfl
  obtain ⟨h1, h2⟩ := noncesUsed_spec E o ops (initState E admin key)
  refine ⟨rfl, ?_, ?_, ?_, ?_, ?_⟩
  · rw [List.range_eq_range']
    rw [hinit] at h1
    exact h1
  · rw [hinit] at h2
    simpa using h2
  · have h3 : noncesUsed E o (initState E admin key) ops =
        List.range (noncesUsed E o (initState E admin key) ops).length := by
      rw [List.range_eq_range']
      rw [hinit] at h1
      exact h1
    rw [h3]
    exact List.nodup_range _
  · intro s more
    obtain ⟨-, hrun⟩ := noncesUsed_spec E o more s
    omega
  · intro c now tc ta s s' id sig h
    obtain ⟨-, key2, hk, hr⟩ := create_attestation_some h
    have hs' : s' = (createResult E c now key2 tc ta s).1 := by rw [← hr]
    have hid : id = (createResult E c now key2 tc ta s).2.1 := by rw [← hr]
    refine ⟨?_, rfl, ?_⟩
    · rw [hs', createResult_attestations, hid]
      simp
    · rw [hs', createResult_nonces]
      simp

/-! ### Concrete instances used by the witnesses -/

/-- A concrete environment (the black-box collaborators instantiated with
simple total functions). -/
def E0 : Env :=
  { keccak := fun _ => List.replicate 32 0
    addrStr := fun _ => []
    ecdsaSign := fun _ _ => (List.replicate 64 1, 1)
    derivePub := fun _ => [] }

def key0 : Bytes := List.replicate 32 1

/-- A well-formed target address: `0x` plus 40 bytes `'a'`. -/
def addr42 : Bytes := [48, 120] ++ List.replicate 40 97

def s0 : State := initState E0 0 key0

def op0 : Op := Op.create 7 5 [101] addr42

def w4 : State × Bytes × Bytes :=
  (create_attestation E0 7 5 [101] addr42 s0).getD (s0, [], [])

/-- Witness for C4: one concrete successful creation from the initial
state records nonce 0 and bumps the counter to 1. -/
theorem c4_nonce_counter_witness :
    w4.1.attestations w4.2.1 =
        some (createdAttestation E0 7 5 604800 [101] addr42 0)
    ∧ (createdAttestation E0 7 5 604800 [101] addr42 0).nonce = 0
    ∧ w4.1.user_nonces 7 = some 1 :=
  (c4_nonce_counter E0 0 key0 7 []).2.2.2.2.2 7 5 [101] addr42 s0
    w4.1 w4.2.1 w4.2.2 rfl

/-! ### The identifier invariant (claim C2) -/

/-- Every stored record carries its key in its `id` field, and re-encoding
the payload re-derived from its stored fields hashes back to that key. -/
def IdInvariant (E : Env) (s : State) : Prop :=
  ∀ id att, s.attestations id = some att →
    att.id = id ∧ E.keccak (abi_encode_payload (payloadOfRecord E att)) = id

theorem initState_IdInvariant (E : Env) (admin : Address) (key : Bytes) :
    IdInvariant E (initState E admin key) := by
  intro id att h
  simp [initState] at h

theorem execOp_IdInvariant (E : Env) (s : State) (op : Op)
    (hI : IdInvariant E s) : IdInvariant E (execOp E s op) := by
  cases op with
  | create c now tc ta =>
    cases h : create_attestation E c now tc ta s with
    | none => simpa [execOp, h] using hI
    | some r =>
      obtain ⟨s', id, sig⟩ := r
      obtain ⟨-, key, hk, hr⟩ := create_attestation_some h
      have hs' : s' = (createResult E c now key tc ta s).1 := by rw [← hr]
      intro j att hj
      simp only [execOp, h] at hj
      rw [hs', createResult_attestations] at hj
      simp only [] at hj
      split at hj
      case isTrue hji =>
        obtain rfl : createdAttestation E c now
            (s.attestation_validity_secs.getD 604800) tc ta
            ((s.user_nonces c).getD 0) = att := Option.some_injective _ hj
        subst hji
        exact ⟨rfl, rfl⟩
      case isFalse hji => exact hI j att hj
  | revoke c i =>
    cases h : revoke_attestation c i s with
    | none => simpa [execOp, h] using hI
    | some s' =>
      obtain ⟨att0, hA, hc, hrev, hs⟩ := revoke_attestation_some h
      intro j att hj
      simp only [execOp, h, Option.getD] at hj
      rw [hs] at hj
      simp only [] at hj
      split at hj
      case isTrue hji =>
        obtain rfl : { att0 with revoked := true } = att := Option.some_injective _ hj
        subst hji
        obtain ⟨hid, hkec⟩ := hI j att0 hA
        exact ⟨hid, hkec⟩
      case isFalse hji => exact hI j att hj

theorem run_IdInvariant (E : Env) :
    ∀ (ops : List Op) (s : State), IdInvariant E s → IdInvariant E (run E s ops) := by
  intro ops
  induction ops with
  | nil => intro s h; exact h
  | cons op rest ih =>
    intro s h
    exact ih (execOp E s op) (execOp_IdInvariant E s op h)

theorem reachable_IdInvariant (E : Env) (s : State) (h : Reachable E s) :
    IdInvariant E s := by
  obtain ⟨admin, key, ops, rfl⟩ := h
  exact run_IdInvariant E ops _ (initState_IdInvariant E admin key)

/-- C2: in every reachable state, re-deriving the payload from a stored
record's fields and encoding it hashes back to the record's key (and the
record's `id` field equals the key); at creation time the stored record
re-derives exactly the payload that was encoded and hashed into the
returned id; a later call leaves a stored record untouched up to the
`revoked` flag — hence with the same re-derived payload — provided no
later creation hashes onto the same id (the digest-collision case the spec
rules out); and `get_attestation_for_evm` returns exactly the re-derived
encoding, whose digest is the id it was looked up under.  Repeated calls
are byte-identical because `get_attestation_for_evm` is a pure function of
the state and the views mutate nothing. -/
theorem c2_identifier_invariant (E : Env) :
    (∀ s, Reachable E s → ∀ id att, s.attestations id = some att →
      att.id = id ∧ E.keccak (abi_encode_payload (payloadOfRecord E att)) = id)
    ∧ (∀ c now tc ta s s' id sig,
        create_attestation E c now tc ta s = some (s', id, sig) →
        s'.attestations id = some (createdAttestation E c now
            (s.attestation_validity_secs.getD 604800) tc ta
            ((s.user_nonces c).getD 0))
        ∧ payloadOfRecord E (createdAttestation E c now
            (s.attestation_validity_secs.getD 604800) tc ta
            ((s.user_nonces c).getD 0))
          = creationPayload E c now (s.attestation_validity_secs.getD 604800)
              tc ta ((s.user_nonces c).getD 0)
        ∧ id = E.keccak (abi_encode_payload (creationPayload E c now
            (s.attestation_validity_secs.getD 604800) tc ta
            ((s.user_nonces c).getD 0))))
    ∧ (∀ s op id att, s.attestations id = some att →
        (∀ c now tc ta r, op = Op.create c now tc ta →
          create_attestation E c now tc ta s = some r → r.2.1 ≠ id) →
        (execOp E s op).attestations id = some att
        ∨ (execOp E s op).attestations id = some { att with revoked := true })
    ∧ (∀ s id att enc sg, s.attestations id = some att →
        get_attestation_for_evm E s id = some (enc, sg) →
        enc = abi_encode_payload (payloadOfRecord E att)
        ∧ (Reachable E s → E.keccak enc = id)) := by
  refine ⟨fun s hs => reachable_IdInvariant E s hs, ?_, ?_, ?_⟩
  · intro c now tc ta s s' id sig h
    obtain ⟨-, key, hk, hr⟩ := create_attestation_some h
    have hs' : s' = (createResult E c now key tc ta s).1 := by rw [← hr]
    have hid : id = (createResult E c now key tc ta s).2.1 := by rw [← hr]
    refine ⟨?_, rfl, ?_⟩
    · rw [hs', createResult_attestations, hid]
      simp
    · rw [hid, createResult_id]
  · intro s op id att hatt hfresh
    cases op with
    | create c now tc ta =>
      cases h : create_attestation E c now tc ta s with
      | none => left; simpa [execOp, h] using hatt
      | some r =>
        have hne := hfresh c now tc ta r rfl h
        obtain ⟨s', i2, sig⟩ := r
        obtain ⟨-, key, hk, hr⟩ := create_attestation_some h
        have hs' : s' = (createResult E c now key tc ta s).1 := by rw [← hr]
        have hi2 : i2 = (createResult E c now key tc ta s).2.1 := by rw [← hr]
        left
        simp only [execOp, h]
        rw [hs', createResult_attestations]
        simp only []
        rw [if_neg (by rw [← hi2]; exact fun he => hne he.symm)]
        exact hatt
    | revoke c i =>
      cases h : revoke_attestation c i s with
      | none => left; simpa [execOp, h] using hatt
      | some s' =>
        obtain ⟨att0, hA, hc, hrev, hs⟩ := revoke_attestation_some h
        simp only [execOp, h, Option.getD]
        rw [hs]
        simp only []
        by_cases hii : id = i
        · right
          rw [if_pos hii]
          subst hii
          rw [hA] at hatt
          obtain rfl : att0 = att := Option.some_injective _ hatt
          rfl
        · left
          rw [if_neg hii]
          exact hatt
  · intro s id att enc sg hatt hevm
    cases hk : s.signer_private_key with
    | none =>
      simp only [get_attestation_for_evm, hatt, hk] at hevm
      cases hevm
    | some key =>
      simp only [get_attestation_for_evm, hatt, hk] at hevm
      obtain ⟨henc, -⟩ := Prod.mk.injEq .. ▸ (Option.some_injective _ hevm)
      refine ⟨henc.symm, fun hreach => ?_⟩
      rw [henc.symm]
      exact (reachable_IdInvariant E s hreach id att hatt).2

/-- Witness for C2 at a concrete reachable state holding one record. -/
theorem c2_identifier_invariant_witness :
    (createdAttestation E0 7 5 604800 [101] addr42 0).id = List.replicate 32 0
    ∧ E0.keccak (abi_encode_payload (payloadOfRecord E0
        (createdAttestation E0 7 5 604800 [101] addr42 0))) =
      List.replicate 32 0 :=
  (c2_identifier_invariant E0).1 (run E0 s0 [op0]) ⟨0, key0, [op0], rfl⟩
    (List.replicate 32 0) (createdAttestation E0 7 5 604800 [101] addr42 0) rfl

/-! ### Claim C5: address validation -/

/-- An ASCII hexadecimal digit (`0-9`, `a-f`, `A-F`). -/
def isHexDigit (b : Nat) : Bool :=
  (48 ≤ b && b ≤ 57) || (97 ≤ b && b ≤ 102) || (65 ≤ b && b ≤ 70)

/-- The address shape the claim describes: `0x` followed by exactly 40 hex
characters (total length 42).  This follows the claim's words; the code's
actual check is `valid_target_address`. -/
def isHexAddressSpec (a : Bytes) : Bool :=
  decide (a.take 2 = [48, 120]) && a.length == 42 && (a.drop 2).all isHexDigit

/-- `"not-an-address"` as UTF-8 bytes. -/
def notAnAddress : Bytes :=
  [110, 111, 116, 45, 97, 110, 45, 97, 100, 100, 114, 101, 115, 115]

/-- `0x` followed by 40 `'z'` bytes: length 42, right marker, not hex. -/
def zAddr : Bytes := [48, 120] ++ List.replicate 40 122

/-- Counterexample to C5 as stated: `zAddr` is not `0x` + 40 hex
characters, yet `create_attestation` accepts it — the code checks only the
`0x` marker and the total length, never hex-ness. -/
theorem c5_hex_not_checked_counterexample :
    isHexAddressSpec zAddr = false
    ∧ valid_target_address zAddr = true
    ∧ (create_attestation E0 7 0 [101] zAddr s0).isSome = true :=
  ⟨by decide, by decide, rfl⟩

/-- C5 amended: `create_attestation` fails with a validation error and no
state change exactly when target_address does not start with the two bytes
`0x` or has total byte length ≠ 42 (hex-ness of the remaining 40 bytes is
not checked); `"not-an-address"` is rejected; every `0x` + 40-hex-digit
address passes validation. -/
theorem c5_address_validation (E : Env) (c : Address) (now : Nat)
    (tc ta : Bytes) (s : State) (key : Bytes)
    (hk : s.signer_private_key = some key) :
    (create_attestation E c now tc ta s = none ↔ valid_target_address ta = false)
    ∧ (create_attestation E c now tc ta s = none →
        execOp E s (.create c now tc ta) = s)
    ∧ valid_target_address notAnAddress = false
    ∧ (∀ a : Bytes, isHexAddressSpec a = true → valid_target_address a = true) := by
  refine ⟨?_, ?_, by decide, ?_⟩
  · unfold create_attestation
    rw [hk]
    cases hv : valid_target_address ta <;> simp [hv]
  · intro h
    simp [execOp, h]
  · intro a ha
    simp only [isHexAddressSpec, Bool.and_eq_true] at ha
    simp only [valid_target_address, Bool.and_eq_true]
    exact ⟨ha.1.1, ha.1.2⟩

/-- Witness for C5 (amended) at the concrete initial state: a malformed
address is rejected and leaves the state unchanged. -/
theorem c5_address_validation_witness :
    (create_attestation E0 7 0 [101] notAnAddress s0 = none ↔
      valid_target_address notAnAddress = false)
    ∧ (create_attestation E0 7 0 [101] notAnAddress s0 = none →
        execOp E0 s0 (.create 7 0 [101] notAnAddress) = s0)
    ∧ valid_target_address notAnAddress = false
    ∧ (∀ a : Bytes, isHexAddressSpec a = true → valid_target_address a = true) :=
  c5_address_validation E0 7 0 [101] notAnAddress s0 key0 rfl

/-! ### Claims C6 and C7: revocation -/

/-- C6: `revoke_attestation` fails exactly when the id resolves to no
record, or the caller is not the record's owner, or the record is already
revoked; it succeeds in every other case; and a failed call leaves the
whole state unchanged. -/
theorem c6_revoke_failure_conditions (E : Env) (c : Address) (id : Bytes)
    (s : State) :
    ((revoke_attestation c id s).isSome = true ↔
      ∃ att, s.attestations id = some att ∧ att.casper_address = c ∧
        att.revoked = false)
    ∧ (s.attestations id = none → revoke_attestation c id s = none)
    ∧ (∀ att, s.attestations id = some att → att.casper_address ≠ c →
        revoke_attestation c id s = none)
    ∧ (∀ att, s.attestations id = some att → att.revoked = true →
        revoke_attestation c id s = none)
    ∧ (revoke_attestation c id s = none → execOp E s (.revoke c id) = s) := by
  refine ⟨revoke_attestation_isSome c id s, ?_, ?_, ?_, ?_⟩
  · intro h
    simp [revoke_attestation, h]
  · intro att hA hc
    simp [revoke_attestation, hA, hc]
  · intro att hA hr
    simp [revoke_attestation, hA, hr]
  · intro h
    simp [execOp, h]

/-- Witness for C6: revoking an absent id in the initial state fails and
changes nothing. -/
theorem c6_revoke_failure_conditions_witness :
    ((revoke_attestation 7 (List.replicate 32 0) s0).isSome = true ↔
      ∃ att, s0.attestations (List.replicate 32 0) = some att ∧
        att.casper_address = 7 ∧ att.revoked = false)
    ∧ (s0.attestations (List.replicate 32 0) = none →
        revoke_attestation 7 (List.replicate 32 0) s0 = none)
    ∧ (∀ att, s0.attestations (List.replicate 32 0) = some att →
        att.casper_address ≠ 7 → revoke_attestation 7 (List.replicate 32 0) s0 = none)
    ∧ (∀ att, s0.attestations (List.replicate 32 0) = some att →
        att.revoked = true → revoke_attestation 7 (List.replicate 32 0) s0 = none)
    ∧ (revoke_attestation 7 (List.replicate 32 0) s0 = none →
        execOp E0 s0 (.revoke 7 (List.replicate 32 0)) = s0) :=
  c6_revoke_failure_conditions E0 7 (List.replicate 32 0) s0

/-- C7: a successful revocation flips only the `revoked` field of the
addressed record from false to true — every other field, every other
record, the per-owner id lists, the nonce counters and the signer key
material are untouched — and no operation un-revokes a revoked record
(for creations, under the spec's standing assumption that a fresh id never
collides with an existing one). -/
theorem c7_revoke_frame (E : Env) :
    (∀ c id s s' att, revoke_attestation c id s = some s' →
        s.attestations id = some att →
        att.revoked = false
        ∧ s'.attestations id = some { att with revoked := true }
        ∧ (∀ j, j ≠ id → s'.attestations j = s.attestations j)
        ∧ s'.user_attestations = s.user_attestations
        ∧ s'.user_nonces = s.user_nonces
        ∧ s'.signer_private_key = s.signer_private_key
        ∧ s'.signer_public_key = s.signer_public_key
        ∧ s'.admin = s.admin
        ∧ s'.attestation_validity_secs = s.attestation_validity_secs)
    ∧ (∀ s op id att, s.attestations id = some att → att.revoked = true →
        (∀ c now tc ta r, op = Op.create c now tc ta →
          create_attestation E c now tc ta s = some r → r.2.1 ≠ id) →
        (execOp E s op).attestations id = some att) := by
  constructor
  · intro c id s s' att hrv hatt
    obtain ⟨att0, hA, hc, hrev0, hs⟩ := revoke_attestation_some hrv
    rw [hA] at hatt
    obtain rfl : att0 = att := Option.some_injective _ hatt
    subst hs
    refine ⟨hrev0, by simp, ?_, rfl, rfl, rfl, rfl, rfl, rfl⟩
    intro j hj
    simp [hj]
  · intro s op id att hatt hrevTrue hfresh
    cases op with
    | create c now tc ta =>
      cases h : create_attestation E c now tc ta s with
      | none => simpa [execOp, h] using hatt
      | some r =>
        have hne := hfresh c now tc ta r rfl h
        obtain ⟨s', i2, sig⟩ := r
        obtain ⟨-, key, hk, hr⟩ := create_attestation_some h
        have hs' : s' = (createResult E c now key tc ta s).1 := by rw [← hr]
        have hi2 : i2 = (createResult E c now key tc ta s).2.1 := by rw [← hr]
        simp only [execOp, h]
        rw [hs', createResult_attestations]
        simp only []
        rw [if_neg fun he => hne (hi2.trans he.symm)]
        exact hatt
    | revoke c i =>
      cases h : revoke_attestation c i s with
      | none => simpa [execOp, h] using hatt
      | some s' =>
        obtain ⟨att0, hA, hc, hrev0, hs⟩ := revoke_attestation_some h
        by_cases hii : id = i
        · subst hii
          rw [hA] at hatt
          obtain rfl : att0 = att := Option.some_injective _ hatt
          rw [hrevTrue] at hrev0
          cases hrev0
        · simp only [execOp, h, Option.getD]
          rw [hs]
          simp only []
          rw [if_neg hii]
          exact hatt

def s1 : State := run E0 s0 [op0]

def att0 : Attestation := createdAttestation E0 7 5 604800 [101] addr42 0

def s2 : State := (revoke_attestation 7 (List.replicate 32 0) s1).getD s1

/-- Witness for C7: create one attestation, revoke it; only the `revoked`
flag of that record changes. -/
theorem c7_revoke_frame_witness :
    att0.revoked = false
    ∧ s2.attestations (List.replicate 32 0) = some { att0 with revoked := true }
    ∧ s2.user_attestations = s1.user_attestations
    ∧ s2.user_nonces = s1.user_nonces
    ∧ s2.signer_private_key = s1.signer_private_key
    ∧ s2.signer_public_key = s1.signer_public_key :=
  have h := (c7_revoke_frame E0).1 7 (List.replicate 32 0) s1 s2 att0 rfl rfl
  ⟨h.1, h.2.1, h.2.2.2.1, h.2.2.2.2.1, h.2.2.2.2.2.1, h.2.2.2.2.2.2.1⟩

/-! ### Claim C8: expiry window -/

theorem execOp_validity (E : Env) (s : State) (op : Op) :
    (execOp E s op).attestation_validity_secs = s.attestation_validity_secs := by
  cases op with
  | create c now tc ta =>
    cases h : create_attestation E c now tc ta s with
    | none => simp [execOp, h]
    | some r =>
      obtain ⟨s', id, sig⟩ := r
      obtain ⟨-, key, hk, hr⟩ := create_attestation_some h
      have hs' : s' = (createResult E c now key tc ta s).1 := by rw [← hr]
      simp only [execOp, h]
      rw [hs']
      exact (createResult_frame E c now key tc ta s).2.2.2
  | revoke c i =>
    cases h : revoke_attestation c i s with
    | none => simp [execOp, h]
    | some s' =>
      obtain ⟨a, hA, hc, hrev, hs⟩ := revoke_attestation_some h
      simp [execOp, h, hs]

theorem run_validity (E : Env) :
    ∀ (ops : List Op) (s : State),
      (run E s ops).attestation_validity_secs = s.attestation_validity_secs := by
  intro ops
  induction ops with
  | nil => intro s; rfl
  | cons op rest ih =>
    intro s
    rw [run, ih (execOp E s op), execOp_validity]

/-- In every reachable state the validity period is the value `init` set:
7 days in seconds. -/
theorem reachable_validity (E : Env) (s : State) (h : Reachable E s) :
    s.attestation_validity_secs = some (7 * 24 * 60 * 60) := by
  obtain ⟨admin, key, ops, rfl⟩ := h
  rw [run_validity]
  rfl

/-- C8: under the default configuration (the only one `init` produces),
every created attestation has `created_at = now` and
`expires_at = now + 7 × 24 × 60 × 60 × 1000`: the validity is stored in
seconds (604800) and multiplied by 1000 at use, so the expiry window in
milliseconds is exactly seven days. -/
theorem c8_expiry_seven_days (E : Env) (s : State) (hreach : Reachable E s)
    (c : Address) (now : Nat) (tc ta : Bytes) (s' : State) (id sig : Bytes)
    (h : create_attestation E c now tc ta s = some (s', id, sig)) :
    s'.attestations id = some (createdAttestation E c now 604800 tc ta
      ((s.user_nonces c).getD 0))
    ∧ (createdAttestation E c now 604800 tc ta
        ((s.user_nonces c).getD 0)).created_at = now
    ∧ (createdAttestation E c now 604800 tc ta
        ((s.user_nonces c).getD 0)).expires_at = now + 7 * 24 * 60 * 60 * 1000
    ∧ (createdAttestation E c now 604800 tc ta
          ((s.user_nonces c).getD 0)).expires_at
        - (createdAttestation E c now 604800 tc ta
            ((s.user_nonces c).getD 0)).created_at
        = 7 * 24 * 60 * 60 * 1000 := by
  have hv : s.attestation_validity_secs = some (7 * 24 * 60 * 60) :=
    reachable_validity E s hreach
  have hv6 : s.attestation_validity_secs.getD 604800 = 604800 := by
    rw [hv]
    rfl
  obtain ⟨-, key, hk, hr⟩ := create_attestation_some h
  have hs' : s' = (createResult E c now key tc ta s).1 := by rw [← hr]
  have hid : id = (createResult E c now key tc ta s).2.1 := by rw [← hr]
  refine ⟨?_, rfl, by simp [createdAttestation], by simp [createdAttestation]⟩
  rw [hs', createResult_attestations, hid, hv6]
  simp

/-- Witness for C8: a creation at block time 5 from the (reachable)
initial state expires at 5 + 604800000. -/
theorem c8_expiry_seven_days_witness :
    w4.1.attestations w4.2.1 =
        some (createdAttestation E0 7 5 604800 [101] addr42 0)
    ∧ (createdAttestation E0 7 5 604800 [101] addr42 0).created_at = 5
    ∧ (createdAttestation E0 7 5 604800 [101] addr42 0).expires_at
        = 5 + 7 * 24 * 60 * 60 * 1000
    ∧ (createdAttestation E0 7 5 604800 [101] addr42 0).expires_at
        - (createdAttestation E0 7 5 604800 [101] addr42 0).created_at
        = 7 * 24 * 60 * 60 * 1000 :=
  c8_expiry_seven_days E0 s0 ⟨0, key0, [], rfl⟩ 7 5 [101] addr42
    w4.1 w4.2.1 w4.2.2 rfl

/-! ### Claim C9: signature format -/

/-- C9: `sign_message` signs the keccak-256 digest of the fixed ASCII
frame `"\x19Ethereum Signed Message:\n32"` followed by the 32-byte digest,
and returns exactly 65 bytes laid out r (32) ‖ s (32) ‖ v (1) with
v = recovery-id + 27 ∈ {27, 28}.  The hypotheses record what the `k256`
collaborator guarantees: `Signature::to_bytes` is 64 bytes and the
recovery id of a secp256k1 signature in low-x form is 0 or 1. -/
theorem c9_sign_message_format (E : Env) (key digest : Bytes)
    (hlen : (E.ecdsaSign key (E.keccak (ethSignedMessageFrame ++ digest))).1.length = 64)
    (hrec : (E.ecdsaSign key (E.keccak (ethSignedMessageFrame ++ digest))).2 ≤ 1) :
    sign_message E key digest
      = (E.ecdsaSign key (E.keccak (ethSignedMessageFrame ++ digest))).1.take 32
        ++ (E.ecdsaSign key (E.keccak (ethSignedMessageFrame ++ digest))).1.drop 32
        ++ [(E.ecdsaSign key (E.keccak (ethSignedMessageFrame ++ digest))).2 + 27]
    ∧ (sign_message E key digest).length = 65
    ∧ ((E.ecdsaSign key (E.keccak (ethSignedMessageFrame ++ digest))).1.take 32).length = 32
    ∧ ((E.ecdsaSign key (E.keccak (ethSignedMessageFrame ++ digest))).1.drop 32).length = 32
    ∧ ((E.ecdsaSign key (E.keccak (ethSignedMessageFrame ++ digest))).2 + 27 = 27
        ∨ (E.ecdsaSign key (E.keccak (ethSignedMessageFrame ++ digest))).2 + 27 = 28)
    ∧ ethSignedMessageFrame
        = 25 :: ("Ethereum Signed Message:".data.map Char.toNat ++ [10, 51, 50]) := by
  refine ⟨?_, ?_, ?_, ?_, ?_, by decide⟩
  · show (E.ecdsaSign key (E.keccak (ethSignedMessageFrame ++ digest))).1
        ++ [(E.ecdsaSign key (E.keccak (ethSignedMessageFrame ++ digest))).2 + 27]
      = _
    rw [List.take_append_drop]
  · unfold sign_message
    simp [hlen]
  · simp [hlen]
  · simp [hlen]
  · omega

/-- Witness for C9 at the concrete environment. -/
theorem c9_sign_message_format_witness :
    sign_message E0 key0 (List.replicate 32 2)
      = (List.replicate 64 1).take 32 ++ (List.replicate 64 1).drop 32 ++ [28]
    ∧ (sign_message E0 key0 (List.replicate 32 2)).length = 65 :=
  have h := c9_sign_message_format E0 key0 (List.replicate 32 2) rfl (by decide)
  ⟨h.1, h.2.1⟩

/-! ### Claim C10: stubbed stake -/

/-- C10: the stake collaborator stub returns zero unconditionally, so
every created attestation has stake 0 and tier `None` (wire byte 0), and
`get_user_tier` returns `None` for every user. -/
theorem c10_stake_stub_zero (E : Env) :
    (∀ u : Address, query_user_stake u = 0)
    ∧ calculate_tier 0 = Tier.None
    ∧ (∀ s u, get_user_tier s u = Tier.None)
    ∧ (∀ c now validity tc ta nonce,
        (creationPayload E c now validity tc ta nonce).stake_amount = 0
        ∧ (creationPayload E c now validity tc ta nonce).tier = 0)
    ∧ (∀ c now tc ta s s' id sig,
        create_attestation E c now tc ta s = some (s', id, sig) →
        s'.attestations id = some (createdAttestation E c now
          (s.attestation_validity_secs.getD 604800) tc ta
          ((s.user_nonces c).getD 0))
        ∧ (createdAttestation E c now (s.attestation_validity_secs.getD 604800)
            tc ta ((s.user_nonces c).getD 0)).stake_amount = 0
        ∧ (createdAttestation E c now (s.attestation_validity_secs.getD 604800)
            tc ta ((s.user_nonces c).getD 0)).tier = Tier.None
        ∧ tierToU8 Tier.None = 0) := by
  refine ⟨fun u => rfl, by decide, ?_, ?_, ?_⟩
  · intro s u
    show calculate_tier 0 = Tier.None
    decide
  · intro c now v tc ta n
    refine ⟨rfl, ?_⟩
    simp only [creationPayload, query_user_stake]
    decide
  intro c now tc ta s s' id sig h
  obtain ⟨-, key, hk, hr⟩ := create_attestation_some h
  have hs' : s' = (createResult E c now key tc ta s).1 := by rw [← hr]
  have hid : id = (createResult E c now key tc ta s).2.1 := by rw [← hr]
  refine ⟨?_, rfl, ?_, rfl⟩
  case refine_2 =>
    simp only [createdAttestation, query_user_stake]
    decide
  rw [hs', createResult_attestations, hid]
  simp

/-- Witness for C10: the concrete creation stores stake 0, tier `None`. -/
theorem c10_stake_stub_zero_witness :
    w4.1.attestations w4.2.1 =
        some (createdAttestation E0 7 5 604800 [101] addr42 0)
    ∧ (createdAttestation E0 7 5 604800 [101] addr42 0).stake_amount = 0
    ∧ (createdAttestation E0 7 5 604800 [101] addr42 0).tier = Tier.None
    ∧ tierToU8 Tier.None = 0 :=
  (c10_stake_stub_zero E0).2.2.2.2 7 5 [101] addr42 s0 w4.1 w4.2.1 w4.2.2 rfl

end Veil
